import Mathlib

/-!
Verification development for the dependency-guard core:
a shallow embedding of the peer-dependency compatibility checker
(src/checkers/compatibility.ts), the security checker
(src/checkers/security.ts) and the risk scoring engine
(src/checkers/scoring.ts), together with theorems about the
behaviour of these functions.

The compatibility checker delegates range-overlap decisions to the
node-semver library (`semver.intersects`).  The first section embeds
the relevant part of node-semver v7 (classes/comparator.js,
classes/range.js, functions/intersects.js) with default options
(`includePrerelease = false`): versions, comparators, desugared
ranges in disjunctive normal form, `Comparator.test`, `Range.test`,
`Comparator.intersects`, `isSatisfiable` and `Range.intersects`.
Range strings are embedded as the pair of their raw text and their
parse result (`none` for a string node-semver rejects); the desugaring
of sugared items (caret, tilde, star) into comparators follows
node-semver `replaceCaret` / `replaceTildes` / `replaceXRanges`.
-/

deriving instance DecidableEq for Except

namespace DG

/-- Prerelease identifier of a semver version: numeric identifiers
compare numerically and are smaller than any alphanumeric identifier
(node-semver compareIdentifiers). -/
inductive PreId where
  | num (n : Nat)
  | str (s : String)
deriving DecidableEq

/-- Semver version. Build metadata is ignored by node-semver compare,
so it is not represented. -/
structure Version where
  major : Nat
  minor : Nat
  patch : Nat
  pre : List PreId
deriving DecidableEq

/-- Three-way comparison of natural numbers. -/
def cmpNat (a b : Nat) : Ordering :=
  if a < b then .lt else if b < a then .gt else .eq

/-- Three-way lexicographic comparison of character lists, modelling
the JS string relational operators used by compareIdentifiers. -/
def cmpChars : List Char → List Char → Ordering
  | [], [] => .eq
  | [], _ :: _ => .lt
  | _ :: _, [] => .gt
  | a :: as, b :: bs =>
    match cmpNat a.toNat b.toNat with
    | .eq => cmpChars as bs
    | o => o

/-- Comparison of two prerelease identifiers (node-semver
compareIdentifiers): numeric pairs compare numerically, a numeric
identifier is smaller than an alphanumeric one, alphanumeric pairs
compare as strings. -/
def cmpPreId : PreId → PreId → Ordering
  | .num a, .num b => cmpNat a b
  | .num _, .str _ => .lt
  | .str _, .num _ => .gt
  | .str a, .str b => cmpChars a.data b.data

/-- Lexicographic comparison of prerelease identifier lists; running
out of identifiers first means smaller (node-semver comparePre loop). -/
def cmpPreList : List PreId → List PreId → Ordering
  | [], [] => .eq
  | [], _ :: _ => .lt
  | _ :: _, [] => .gt
  | a :: as, b :: bs =>
    match cmpPreId a b with
    | .eq => cmpPreList as bs
    | o => o

/-- Comparison of the prerelease components of two versions: a version
without prerelease identifiers has higher precedence than one with
them (node-semver comparePre). -/
def cmpPre : List PreId → List PreId → Ordering
  | [], [] => .eq
  | [], _ :: _ => .gt
  | _ :: _, [] => .lt
  | a :: as, b :: bs => cmpPreList (a :: as) (b :: bs)

/-- Full semver precedence comparison (node-semver compare): major,
minor, patch, then prerelease. -/
def verCompare (a b : Version) : Ordering :=
  match cmpNat a.major b.major with
  | .eq =>
    match cmpNat a.minor b.minor with
    | .eq =>
      match cmpNat a.patch b.patch with
      | .eq => cmpPre a.pre b.pre
      | o => o
    | o => o
  | o => o

/-- Comparator operator as normalized by node-semver: `=` is
normalized to the empty operator, embedded here as `eq`. -/
inductive CompOp where
  | lt
  | le
  | gt
  | ge
  | eq
deriving DecidableEq

/-- Parsed comparator: either the ANY comparator (empty operator and
empty value, produced for `*` and the empty range) or an operator
applied to a version. -/
inductive Comparator where
  | any
  | c (op : CompOp) (ver : Version)
deriving DecidableEq

/-- Desugared range in disjunctive normal form: the outer list is the
`||` alternatives, each inner list a conjunction of comparators. -/
abbrev SemverRange := List (List Comparator)

/-- Comparator.test for a single comparator against a version:
`cmp version operator semver` (the ANY comparator accepts every
version at this level; prerelease exclusion happens in testSet). -/
def compTest : Comparator → Version → Bool
  | .any, _ => true
  | .c op v0, v =>
    match op with
    | .eq => verCompare v v0 == .eq
    | .lt => verCompare v v0 == .lt
    | .le => verCompare v v0 != .gt
    | .gt => verCompare v v0 == .gt
    | .ge => verCompare v v0 != .lt

/-- With default options a version that has prerelease identifiers is
only accepted by a comparator set when some comparator in the set
mentions a prerelease version with the same major.minor.patch tuple
(node-semver testSet, second loop; the ANY comparator is skipped). -/
def hasPreMatch (set : List Comparator) (v : Version) : Bool :=
  set.any fun c =>
    match c with
    | .any => false
    | .c _ v0 =>
      !v0.pre.isEmpty && v0.major == v.major && v0.minor == v.minor && v0.patch == v.patch

/-- node-semver testSet with default options: every comparator must
accept the version, and a prerelease version additionally needs a
prerelease comparator on the same tuple. -/
def testSet (set : List Comparator) (v : Version) : Bool :=
  set.all (fun c => compTest c v) && (v.pre.isEmpty || hasPreMatch set v)

/-- Range.test: some alternative of the DNF accepts the version. -/
def rangeTest (r : SemverRange) (v : Version) : Bool :=
  r.any fun set => testSet set v

/-- Operator starts with `>` in the node-semver source. -/
def isGtDir : CompOp → Bool
  | .gt => true
  | .ge => true
  | _ => false

/-- Operator starts with `<` in the node-semver source. -/
def isLtDir : CompOp → Bool
  | .lt => true
  | .le => true
  | _ => false

/-- Operator contains `=` in the node-semver source (the empty
operator is dispatched before this test is reached). -/
def isIncl : CompOp → Bool
  | .le => true
  | .ge => true
  | _ => false

/-- Special case of Comparator.intersects with default options: a
comparator whose value starts with `<0.0.0` can intersect nothing. -/
def isLt0 : CompOp → Version → Bool
  | .lt, v => v.major == 0 && v.minor == 0 && v.patch == 0
  | _, _ => false

/-- Comparator.intersects with default options (node-semver v7):
the empty-operator cases are dispatched first (ANY returns true, an
exact comparator tests its version against the other comparator seen
as a range), then the `<0.0.0` special case, same-direction cases,
the inclusive same-version case and the two opposite-direction
cases. -/
def compIntersects : Comparator → Comparator → Bool
  | .any, _ => true
  | .c .eq v1, c2 => rangeTest [[c2]] v1
  | _, .any => true
  | c1, .c .eq v2 => rangeTest [[c1]] v2
  | .c op1 v1, .c op2 v2 =>
    if isLt0 op1 v1 || isLt0 op2 v2 then false
    else if isGtDir op1 && isGtDir op2 then true
    else if isLtDir op1 && isLtDir op2 then true
    else if v1 == v2 && isIncl op1 && isIncl op2 then true
    else if verCompare v1 v2 == .lt && isGtDir op1 && isLtDir op2 then true
    else if verCompare v1 v2 == .gt && isLtDir op1 && isGtDir op2 then true
    else false

/-- Helper for isSatisfiable: the input list is the reversed
comparator set; each comparator must intersect all the ones popped
after it (node-semver isSatisfiable loop). -/
def satAux : List Comparator → Bool
  | [] => true
  | t :: rest => rest.all (fun o => compIntersects t o) && satAux rest

/-- node-semver isSatisfiable: pops comparators from the end of the
set and checks each against the remaining ones. -/
def isSatisfiable (cs : List Comparator) : Bool :=
  satAux cs.reverse

/-- Range.intersects: some satisfiable alternative of the first range
pairwise-intersects some satisfiable alternative of the second. -/
def rangeIntersects (r1 r2 : SemverRange) : Bool :=
  r1.any fun s1 =>
    isSatisfiable s1 &&
      r2.any fun s2 =>
        isSatisfiable s2 &&
          s1.all fun c1 => s2.all fun c2 => compIntersects c1 c2

/-- Surface syntax item of a range alternative, as written between
`||` separators: caret and tilde sugar, a plain comparator (the
operator-free form `1.2.3` is `comp .eq`), or the wildcard. -/
inductive RangeItem where
  | caret (v : Version)
  | tilde (v : Version)
  | comp (op : CompOp) (v : Version)
  | star
deriving DecidableEq

/-- Desugaring of one item into comparators, following node-semver
replaceCaret (major 0 and major.minor 0 kept rigid, upper bound gets
the `-0` prerelease), replaceTildes and replaceXRanges. -/
def desugarItem : RangeItem → List Comparator
  | .caret v =>
    if v.major ≠ 0 then
      [.c .ge v, .c .lt ⟨v.major + 1, 0, 0, [.num 0]⟩]
    else if v.minor ≠ 0 then
      [.c .ge v, .c .lt ⟨0, v.minor + 1, 0, [.num 0]⟩]
    else
      [.c .ge v, .c .lt ⟨0, 0, v.patch + 1, [.num 0]⟩]
  | .tilde v => [.c .ge v, .c .lt ⟨v.major, v.minor + 1, 0, [.num 0]⟩]
  | .comp op v => [.c op v]
  | .star => [.any]

/-- Desugaring of one alternative: the empty alternative (empty range
string) parses to the ANY comparator. -/
def desugarSet (items : List RangeItem) : List Comparator :=
  if items.isEmpty then [.any]
  else items.foldr (fun i acc => desugarItem i ++ acc) []

/-- Range string as consumed by the checker: the raw text (used in
remediation commands) together with its parse result, `none` when
node-semver rejects the string (`new Range(...)` throws). -/
structure Rng where
  raw : String
  parse : Option (List (List RangeItem))
deriving DecidableEq

/-- Parse of a range string into its desugared DNF. -/
def parseRng (r : Rng) : Option SemverRange :=
  r.parse.map fun sets => sets.map desugarSet

/-- semver.intersects at the call site in checkCompatibility: both
arguments are parsed (the constructor of Range throws a TypeError on
an unparseable string, the first argument first) and then
Range.intersects decides the overlap. -/
def semverIntersects (a b : Rng) : Except String Bool :=
  match parseRng a with
  | none => .error ("Invalid comparator: " ++ a.raw)
  | some ra =>
    match parseRng b with
    | none => .error ("Invalid comparator: " ++ b.raw)
    | some rb => .ok (rangeIntersects ra rb)

/-!
Embedding of src/checkers/compatibility.ts.  The two effectful data
sources are passed as arguments: the manifest discovered by
findPackageJson and parsed by JSON.parse (`none` when no package.json
is found within the search depth), and the peer data returned by
fetchPeerDependencies (`none` when the registry fetch fails, the
response is unparseable, or the latest version is missing).  JS
objects appear as association lists in insertion order.
-/

/-- Status of one peer check (src/types.ts PeerStatus). -/
inductive PeerStatus where
  | COMPATIBLE
  | INCOMPATIBLE
  | MISSING
  | OPTIONAL_MISSING
deriving DecidableEq

/-- One peer check result (src/types.ts PeerCheck). -/
structure PeerCheck where
  name : String
  required : Rng
  installed : Option Rng
  status : PeerStatus
  fixCommand : Option String
deriving DecidableEq

/-- Compatibility report (src/types.ts CompatibilityReport). -/
structure CompatibilityReport where
  packageName : String
  checks : List PeerCheck
  compatible : Bool
deriving DecidableEq

/-- Parsed user package.json (UserPackageJson in compatibility.ts):
the two optional dependency objects, as name-range lists in key
order. -/
structure UserPackageJson where
  dependencies : Option (List (String × Rng))
  devDependencies : Option (List (String × Rng))
deriving DecidableEq

/-- Peer data returned by fetchPeerDependencies: peerDependencies and
peerDependenciesMeta of the latest version (a meta entry carries the
optional field when present) plus the resolved version. -/
structure PeersData where
  peers : List (String × Rng)
  meta : List (String × Option Bool)
  resolvedVersion : String
deriving DecidableEq

/-- Lookup of a property in a JS object embedded as an association
list (first binding wins; objects built by JSON.parse or Object.assign
have unique keys). -/
def lookupFirst (l : List (String × α)) (k : String) : Option α :=
  (l.find? fun kv => kv.1 == k).map fun kv => kv.2

/-- Property write on a JS object: an existing key keeps its position
and gets the new value, a new key is appended. -/
def setKey : List (String × α) → String → α → List (String × α)
  | [], k, v => [(k, v)]
  | (k', v') :: rest, k, v =>
    if k' == k then (k', v) :: rest else (k', v') :: setKey rest k v

/-- Object.assign target src: copies the properties of src onto the
target in key order, overwriting existing values. -/
def objAssign (target : List (String × α)) (src : List (String × α)) : List (String × α) :=
  src.foldl (fun t kv => setKey t kv.1 kv.2) target

/-- getInstalledPackages: merges dependencies and devDependencies of
the parsed manifest into one map via two Object.assign calls, so a
devDependencies entry overwrites a dependencies entry of the same
name. -/
def getInstalledPackages (pkg : UserPackageJson) : List (String × Rng) :=
  let installed : List (String × Rng) := []
  let installed :=
    match pkg.dependencies with
    | some d => objAssign installed d
    | none => installed
  match pkg.devDependencies with
  | some d => objAssign installed d
  | none => installed

/-- Value of `peerData.meta[peerName]?.optional === true`. -/
def metaOptional (meta : List (String × Option Bool)) (name : String) : Bool :=
  match lookupFirst meta name with
  | some (some b) => b
  | _ => false

/-- Fragment `name@"range"` pushed onto fixParts for a failing peer. -/
def fixPart (name : String) (r : Rng) : String :=
  name ++ "@\"" ++ r.raw ++ "\""

/-- Individual remediation command of a failing peer. -/
def fixCmd (name : String) (r : Rng) : String :=
  "npm install " ++ fixPart name r

/-- Loop body of checkCompatibility over the peer entries, in
declaration order, producing the checks and the accumulated fixParts.
A TypeError thrown by semver.intersects propagates (there is no
try/catch around the loop), so it aborts the remaining peers. -/
def processPeers (installed : List (String × Rng)) (meta : List (String × Option Bool)) :
    List (String × Rng) → Except String (List PeerCheck × List String)
  | [] => .ok ([], [])
  | (peerName, requiredRange) :: rest =>
    match lookupFirst installed peerName with
    | none =>
      if metaOptional meta peerName then
        match processPeers installed meta rest with
        | .error e => .error e
        | .ok (cs, ps) =>
          .ok (⟨peerName, requiredRange, none, .OPTIONAL_MISSING, none⟩ :: cs, ps)
      else
        match processPeers installed meta rest with
        | .error e => .error e
        | .ok (cs, ps) =>
          .ok (⟨peerName, requiredRange, none, .MISSING, some (fixCmd peerName requiredRange)⟩ :: cs,
            fixPart peerName requiredRange :: ps)
    | some installedRange =>
      match semverIntersects installedRange requiredRange with
      | .error e => .error e
      | .ok compatible =>
        if compatible then
          match processPeers installed meta rest with
          | .error e => .error e
          | .ok (cs, ps) =>
            .ok (⟨peerName, requiredRange, some installedRange, .COMPATIBLE, none⟩ :: cs, ps)
        else
          match processPeers installed meta rest with
          | .error e => .error e
          | .ok (cs, ps) =>
            .ok (⟨peerName, requiredRange, some installedRange, .INCOMPATIBLE,
                some (fixCmd peerName requiredRange)⟩ :: cs,
              fixPart peerName requiredRange :: ps)

/-- Failing statuses, the condition of `checks.find` in step 4. -/
def isFailing : PeerStatus → Bool
  | .MISSING => true
  | .INCOMPATIBLE => true
  | _ => false

/-- Step 4 of checkCompatibility: overwrite the fixCommand of the
first failing check with the combined command. -/
def attachCombined : List PeerCheck → String → List PeerCheck
  | [], _ => []
  | c :: rest, combined =>
    if isFailing c.status then { c with fixCommand := some combined } :: rest
    else c :: attachCombined rest combined

/-- Steps 4 to 6 of checkCompatibility: when some fixParts were
collected, overwrite the fixCommand of the first failing check with
the combined command, then compute the compatible flag over the
resulting checks. -/
def assembleReport (packageName : String) (checks : List PeerCheck) (fixParts : List String) :
    CompatibilityReport :=
  let newChecks :=
    if fixParts.isEmpty then checks
    else attachCombined checks ("npm install " ++ String.intercalate " " fixParts)
  ⟨packageName, newChecks,
    newChecks.all fun c => c.status == .COMPATIBLE || c.status == .OPTIONAL_MISSING⟩

/-- checkCompatibility (compatibility.ts) on the outcomes of its two
data sources.  Early returns: no manifest found, fetch failure, or an
empty peerDependencies object.  Otherwise each peer entry is
classified, the combined remediation command is attached to the first
failing check, and the report is compatible iff every check is
COMPATIBLE or OPTIONAL_MISSING. -/
def checkCompatibility (packageName : String) (manifest : Option UserPackageJson)
    (peerData : Option PeersData) : Except String CompatibilityReport :=
  match manifest with
  | none => .ok ⟨packageName, [], true⟩
  | some pkg =>
    match peerData with
    | none => .ok ⟨packageName, [], true⟩
    | some pd =>
      if pd.peers.isEmpty then .ok ⟨packageName, [], true⟩
      else
        match processPeers (getInstalledPackages pkg) pd.meta pd.peers with
        | .error e => .error e
        | .ok (checks, fixParts) => .ok (assembleReport packageName checks fixParts)

/-!
Embedding of src/checkers/security.ts.  The OSV fetch outcome is
passed as an argument; the cache fast path (which returns a previously
produced report unchanged) is collaborator state and not embedded.
A CVSS score string is embedded as its parseFloat result (`none` when
parseFloat yields NaN); JSON fields that may be absent are options.
-/

/-- Normalized severity (src/types.ts SecurityVulnerability). -/
inductive Severity where
  | LOW
  | MODERATE
  | HIGH
  | CRITICAL
deriving DecidableEq

/-- One normalized vulnerability (src/types.ts). -/
structure SecurityVulnerability where
  id : String
  summary : String
  severity : Severity
  affectedVersions : String
  url : String
deriving DecidableEq

/-- Security report (src/types.ts SecurityReport). -/
structure SecurityReport where
  packageName : String
  vulnerabilities : List SecurityVulnerability
  hasCritical : Bool
deriving DecidableEq

/-- OSV severity entry: the type tag and the CVSS score string, the
latter embedded as its parseFloat result. -/
structure OsvSeverityEntry where
  type : Option String
  score : Option (Option Rat)
deriving DecidableEq

/-- OSV affected-range event. -/
structure OsvEvent where
  introduced : Option String
  fixed : Option String
deriving DecidableEq

/-- OSV affected range. -/
structure OsvAffectedRange where
  events : Option (List OsvEvent)
deriving DecidableEq

/-- OSV affected entry. -/
structure OsvAffected where
  ranges : Option (List OsvAffectedRange)
deriving DecidableEq

/-- OSV reference. -/
structure OsvReference where
  type : Option String
  url : Option String
deriving DecidableEq

/-- One raw OSV vulnerability record. -/
structure OsvVuln where
  id : Option String
  summary : Option String
  severity : Option (List OsvSeverityEntry)
  affected : Option (List OsvAffected)
  references : Option (List OsvReference)
deriving DecidableEq

/-- Parsed OSV query response body. -/
structure OsvResponse where
  vulns : Option (List OsvVuln)
deriving DecidableEq

/-- Outcome of the OSV fetch: a thrown network or JSON error, a
non-ok HTTP response, or a parsed body. -/
inductive OsvOutcome where
  | fetchError
  | notOk
  | ok (data : OsvResponse)
deriving DecidableEq

/-- normalizeSeverity: prefer the CVSS_V3 entry, fall back to the
first entry; map the parsed score through the NIST thresholds, with
MODERATE for a missing or unparseable score.  A missing score string
and an empty one both reach MODERATE (an empty string is falsy and
parseFloat of it is NaN). -/
def normalizeSeverity (sevEntries : Option (List OsvSeverityEntry)) : Severity :=
  match sevEntries with
  | none => .MODERATE
  | some [] => .MODERATE
  | some (e0 :: rest) =>
    let cvss := ((e0 :: rest).find? fun s => s.type == some "CVSS_V3").getD e0
    match cvss.score with
    | none => .MODERATE
    | some none => .MODERATE
    | some (some num) =>
      if num ≥ 9 then .CRITICAL
      else if num ≥ 7 then .HIGH
      else if num ≥ 4 then .MODERATE
      else .LOW

/-- extractAffectedVersions: collect `>=introduced` and `<fixed`
fragments over all ranges and events, in order; truthiness of the JS
test means empty strings are skipped. -/
def extractAffectedVersions (affected : Option (List OsvAffected)) : String :=
  match affected with
  | none => "unknown"
  | some [] => "unknown"
  | some entries =>
    let parts :=
      entries.foldr (fun entry acc =>
        (entry.ranges.getD []).foldr (fun range acc2 =>
          (range.events.getD []).foldr (fun event acc3 =>
            (match event.introduced with
              | some s => if s.isEmpty then [] else [">=" ++ s]
              | none => []) ++
            (match event.fixed with
              | some s => if s.isEmpty then [] else ["<" ++ s]
              | none => []) ++ acc3) acc2) acc) []
    if parts.isEmpty then "unknown" else String.intercalate ", " parts

/-- pickUrl: the url of the ADVISORY reference when present, else the
url of the first reference, else the empty string. -/
def pickUrl (refs : Option (List OsvReference)) : String :=
  match refs with
  | none => ""
  | some [] => ""
  | some (r0 :: rest) =>
    let fallback := r0.url.getD ""
    match (r0 :: rest).find? fun r => r.type == some "ADVISORY" with
    | some a =>
      match a.url with
      | some u => u
      | none => fallback
    | none => fallback

/-- checkSecurity (security.ts) on the fetch outcome: every error path
returns the empty report; a body without vulnerabilities returns the
empty report; otherwise the records are normalized and hasCritical is
set when some normalized severity is CRITICAL. -/
def checkSecurity (packageName : String) (_version : String) (outcome : OsvOutcome) :
    SecurityReport :=
  let emptyReport : SecurityReport := ⟨packageName, [], false⟩
  match outcome with
  | .fetchError => emptyReport
  | .notOk => emptyReport
  | .ok data =>
    match data.vulns with
    | none => emptyReport
    | some [] => emptyReport
    | some (v0 :: rest) =>
      let vulnerabilities := (v0 :: rest).map fun v =>
        ({ id := v.id.getD "UNKNOWN"
           summary := v.summary.getD "No description available"
           severity := normalizeSeverity v.severity
           affectedVersions := extractAffectedVersions v.affected
           url := pickUrl v.references } : SecurityVulnerability)
      ⟨packageName, vulnerabilities,
        vulnerabilities.any fun v => v.severity == .CRITICAL⟩

/-!
Embedding of src/checkers/scoring.ts.  JS numeric computation on the
reachable values is embedded over the rationals; Math.round is
floor of the argument plus one half.  The package metadata field
lastPublish is a date string fed to `new Date`; it is embedded as the
parsed timestamp in milliseconds (`none` when the Date is invalid),
and Date.now is passed to the maintenance factor as an argument.
-/

/-- Risk factor (src/types.ts RiskFactor). -/
structure RiskFactor where
  name : String
  score : Int
  maxScore : Int
  reason : String
deriving DecidableEq

/-- Recommended action (src/types.ts RiskAction). -/
inductive RiskAction where
  | ALLOW
  | WARN
  | BLOCK
deriving DecidableEq

/-- Risk score (src/types.ts RiskScore). -/
structure RiskScore where
  score : Int
  action : RiskAction
  factors : List RiskFactor
deriving DecidableEq

/-- Package metadata consumed by the scoring engine (src/types.ts
PackageInfo; the fields the scorers do not read are omitted).
deprecated is `string | false`, embedded as an option; lastPublish is
embedded as the parsed timestamp. -/
structure PackageInfo where
  name : String
  version : String
  deprecated : Option String
  lastPublish : Option Int
  weeklyDownloads : Nat
  maintainerCount : Nat
deriving DecidableEq

/-- Math.round: floor of the argument plus one half. -/
def jsRound (q : Rat) : Int :=
  ⌊q + 1 / 2⌋

/-- Scoring weights (scoring.ts constants). -/
def WEIGHT_COMPATIBILITY : Int := 40

/-- Security weight. -/
def WEIGHT_SECURITY : Int := 30

/-- Deprecation weight. -/
def WEIGHT_DEPRECATION : Int := 15

/-- Maintenance weight. -/
def WEIGHT_MAINTENANCE : Int := 15

/-- Action thresholds (scoring.ts constants). -/
def THRESHOLD_ALLOW : Int := 75

/-- Warn threshold. -/
def THRESHOLD_WARN : Int := 40

/-- scoreCompatibility: full weight when there are no checks,
otherwise the weight scaled by the fraction of non-failing checks,
rounded. -/
def scoreCompatibility (report : CompatibilityReport) : RiskFactor :=
  let total := report.checks.length
  if total = 0 then
    ⟨"Peer Compatibility", WEIGHT_COMPATIBILITY, WEIGHT_COMPATIBILITY,
      "No peer dependencies declared"⟩
  else
    let missing := (report.checks.filter fun c => c.status == .MISSING).length
    let incompatible := (report.checks.filter fun c => c.status == .INCOMPATIBLE).length
    let issues := missing + incompatible
    let penalty : Rat := min ((issues : Rat) / (total : Rat)) 1
    let score := jsRound ((WEIGHT_COMPATIBILITY : Rat) * (1 - penalty))
    let reason :=
      if issues = 0 then "All peer dependencies satisfied"
      else
        let parts :=
          (if missing > 0 then [toString missing ++ " missing"] else []) ++
          (if incompatible > 0 then [toString incompatible ++ " incompatible"] else [])
        "Peer issues: " ++ String.intercalate ", " parts
    ⟨"Peer Compatibility", score, WEIGHT_COMPATIBILITY, reason⟩

/-- scoreSecurity: full weight when the list is empty, otherwise the
weight scaled by one minus the capped weighted penalty
(CRITICAL 15, HIGH 8, MODERATE 3; LOW not counted), rounded. -/
def scoreSecurity (report : SecurityReport) : RiskFactor :=
  if report.vulnerabilities.length = 0 then
    ⟨"Security", WEIGHT_SECURITY, WEIGHT_SECURITY, "No known vulnerabilities"⟩
  else
    let critical := (report.vulnerabilities.filter fun v => v.severity == .CRITICAL).length
    let high := (report.vulnerabilities.filter fun v => v.severity == .HIGH).length
    let moderate := (report.vulnerabilities.filter fun v => v.severity == .MODERATE).length
    let penalty : Rat :=
      min (((critical * 15 + high * 8 + moderate * 3 : Nat) : Rat) / (WEIGHT_SECURITY : Rat)) 1
    let score := jsRound ((WEIGHT_SECURITY : Rat) * (1 - penalty))
    let n := report.vulnerabilities.length
    let reason := toString n ++ " vulnerabilit" ++ (if n = 1 then "y" else "ies") ++
      " (" ++ toString critical ++ " critical, " ++ toString high ++ " high)"
    ⟨"Security", score, WEIGHT_SECURITY, reason⟩

/-- scoreDeprecation: full weight when metadata is unavailable or the
package is not deprecated, zero when the deprecated field is set. -/
def scoreDeprecation (info : Option PackageInfo) : RiskFactor :=
  match info with
  | none =>
    ⟨"Deprecation", WEIGHT_DEPRECATION, WEIGHT_DEPRECATION,
      "Package info unavailable — skipped"⟩
  | some i =>
    match i.deprecated with
    | some msg => ⟨"Deprecation", 0, WEIGHT_DEPRECATION, "Deprecated: " ++ msg⟩
    | none => ⟨"Deprecation", WEIGHT_DEPRECATION, WEIGHT_DEPRECATION, "Not deprecated"⟩

/-- scoreMaintenance: full weight when metadata is unavailable,
otherwise the weight minus additive penalties for staleness (10 past
two years, 5 past one year, skipped when the date is invalid),
maintainer count (5 for none, 2 for one) and low weekly downloads
(3 under 100), floored at zero.  `now` is Date.now in
milliseconds. -/
def scoreMaintenance (info : Option PackageInfo) (now : Int) : RiskFactor :=
  match info with
  | none =>
    ⟨"Maintenance", WEIGHT_MAINTENANCE, WEIGHT_MAINTENANCE,
      "Package info unavailable — skipped"⟩
  | some i =>
    let score0 := WEIGHT_MAINTENANCE
    let stale : Int × List String :=
      match i.lastPublish with
      | none => (0, [])
      | some t =>
        let daysSince := (now - t).fdiv (1000 * 60 * 60 * 24)
        if daysSince > 730 then (10, ["Last published " ++ toString daysSince ++ " days ago"])
        else if daysSince > 365 then (5, ["Last published " ++ toString daysSince ++ " days ago"])
        else (0, [])
    let score1 := score0 - stale.1
    let maint : Int × List String :=
      if i.maintainerCount = 0 then (5, ["No listed maintainers"])
      else if i.maintainerCount = 1 then (2, ["Single maintainer (bus factor)"])
      else (0, [])
    let score2 := score1 - maint.1
    let dl : Int × List String :=
      if i.weeklyDownloads < 100 then
        (3, ["Low usage: " ++ toString i.weeklyDownloads ++ " weekly downloads"])
      else (0, [])
    let score3 := score2 - dl.1
    let score := max score3 0
    let reasons := stale.2 ++ maint.2 ++ dl.2
    let reason := if reasons.isEmpty then "Actively maintained" else String.intercalate "; " reasons
    ⟨"Maintenance", score, WEIGHT_MAINTENANCE, reason⟩

/-- calculateRiskScore: the four factors in order, their score sum,
and the action by the fixed thresholds (strictly above 75 ALLOW,
strictly above 40 WARN, else BLOCK). -/
def calculateRiskScore (compatibility : CompatibilityReport) (security : SecurityReport)
    (packageInfo : Option PackageInfo) (now : Int) : RiskScore :=
  let factors : List RiskFactor :=
    [scoreCompatibility compatibility, scoreSecurity security,
      scoreDeprecation packageInfo, scoreMaintenance packageInfo now]
  let totalScore := factors.foldl (fun sum f => sum + f.score) 0
  let action : RiskAction :=
    if totalScore > THRESHOLD_ALLOW then .ALLOW
    else if totalScore > THRESHOLD_WARN then .WARN
    else .BLOCK
  ⟨totalScore, action, factors⟩

/-- Exact comparator on a prerelease version, the shape involved in
the node-semver intersects asymmetry. -/
def isEqPre : Comparator → Bool
  | .c .eq v => !v.pre.isEmpty
  | _ => false

/-- Some alternative of the range contains the ANY comparator. -/
def hasAnyComp (r : SemverRange) : Bool :=
  r.any fun s => s.any fun c => c == Comparator.any

/-- Some alternative of the range contains an exact comparator on a
prerelease version. -/
def hasEqPre (r : SemverRange) : Bool :=
  r.any fun s => s.any isEqPre

/-!
Concrete inputs used by the scenario theorems below.
-/

/-- Range string `^17.0.0` with its parse. -/
def caret17 : Rng := ⟨"^17.0.0", some [[.caret ⟨17, 0, 0, []⟩]]⟩

/-- Range string `^18.0.0` with its parse. -/
def caret18 : Rng := ⟨"^18.0.0", some [[.caret ⟨18, 0, 0, []⟩]]⟩

/-- Range string `^3.0.0` with its parse. -/
def caret3 : Rng := ⟨"^3.0.0", some [[.caret ⟨3, 0, 0, []⟩]]⟩

/-- Range string `>=17.0.0 <19.0.0` with its parse. -/
def range1719 : Rng :=
  ⟨">=17.0.0 <19.0.0", some [[.comp .ge ⟨17, 0, 0, []⟩, .comp .lt ⟨19, 0, 0, []⟩]]⟩

/-- A string node-semver rejects as a range. -/
def invalidRange : Rng := ⟨"not-a-range", none⟩

/-- The wildcard range. -/
def starRange : Rng := ⟨"*", some [[.star]]⟩

/-- An exact prerelease version used as a range. -/
def exactBeta : Rng := ⟨"1.2.3-beta", some [[.comp .eq ⟨1, 2, 3, [.str "beta"]⟩]]⟩

/-- A manifest with react pinned to `^17.0.0` in dependencies. -/
def sampleManifest : UserPackageJson := ⟨some [("react", caret17)], none⟩

/-- Peer data demanding react `^18.0.0` and vue `^3.0.0`. -/
def samplePeers : PeersData := ⟨[("react", caret18), ("vue", caret3)], [], "1.0.0"⟩

/-- The report checkCompatibility produces for sampleManifest and
samplePeers: react is INCOMPATIBLE and carries the combined command,
vue is MISSING and keeps its individual command. -/
def sampleReport : CompatibilityReport :=
  ⟨"some-lib",
    [⟨"react", caret18, some caret17, .INCOMPATIBLE,
        some "npm install react@\"^18.0.0\" vue@\"^3.0.0\""⟩,
      ⟨"vue", caret3, none, .MISSING, some "npm install vue@\"^3.0.0\""⟩],
    false⟩

/-- Metadata of a deprecated but otherwise healthy package. -/
def deprecatedInfo : PackageInfo :=
  ⟨"left-pad", "1.3.0", some "use String.prototype.padStart", some 0, 1000, 2⟩

/-- A CRITICAL vulnerability record. -/
def sampleVulnCritical : SecurityVulnerability := ⟨"GHSA-1", "bad", .CRITICAL, ">=1.0.0", "u"⟩

/-- A security report holding one CRITICAL vulnerability. -/
def sampleSecReport : SecurityReport := ⟨"p", [sampleVulnCritical], true⟩

/-!
Lemmas about the comparison functions of the semver embedding.
-/

theorem charToNat_inj {a b : Char} (h : a.toNat = b.toNat) : a = b := by
  cases a
  cases b
  simp only [Char.toNat] at h
  congr 1
  exact UInt32.ext h

theorem cmpNat_swap (a b : Nat) : cmpNat b a = (cmpNat a b).swap := by
  unfold cmpNat
  split_ifs <;> first | rfl | omega

theorem cmpNat_eq_iff {a b : Nat} : cmpNat a b = .eq ↔ a = b := by
  unfold cmpNat
  split_ifs <;> simp <;> omega

theorem cmpChars_swap : ∀ as bs, cmpChars bs as = (cmpChars as bs).swap
  | [], [] => rfl
  | [], _ :: _ => rfl
  | _ :: _, [] => rfl
  | a :: as, b :: bs => by
    simp only [cmpChars]
    rw [cmpNat_swap]
    cases cmpNat a.toNat b.toNat <;> simp [Ordering.swap, cmpChars_swap as bs]

theorem cmpChars_eq_iff : ∀ as bs, cmpChars as bs = .eq ↔ as = bs
  | [], [] => by simp [cmpChars]
  | [], _ :: _ => by simp [cmpChars]
  | _ :: _, [] => by simp [cmpChars]
  | a :: as, b :: bs => by
    simp only [cmpChars]
    cases h : cmpNat a.toNat b.toNat
    · simp only [reduceCtorEq, false_iff]
      intro hc
      injection hc with h1 _
      subst h1
      rw [cmpNat_eq_iff.mpr rfl] at h
      exact absurd h (by simp)
    · have hab : a = b := charToNat_inj (cmpNat_eq_iff.mp h)
      simp [hab, cmpChars_eq_iff as bs]
    · simp only [reduceCtorEq, false_iff]
      intro hc
      injection hc with h1 _
      subst h1
      rw [cmpNat_eq_iff.mpr rfl] at h
      exact absurd h (by simp)

theorem cmpPreId_swap (a b : PreId) : cmpPreId b a = (cmpPreId a b).swap := by
  cases a <;> cases b
  · exact cmpNat_swap _ _
  · rfl
  · rfl
  · exact cmpChars_swap _ _

theorem cmpPreId_eq_iff {a b : PreId} : cmpPreId a b = .eq ↔ a = b := by
  cases a <;> cases b <;>
    simp [cmpPreId, cmpNat_eq_iff, cmpChars_eq_iff]
  case str.str s t =>
    constructor
    · intro h
      exact String.ext h
    · intro h
      rw [h]

theorem cmpPreList_swap : ∀ as bs, cmpPreList bs as = (cmpPreList as bs).swap
  | [], [] => rfl
  | [], _ :: _ => rfl
  | _ :: _, [] => rfl
  | a :: as, b :: bs => by
    simp only [cmpPreList]
    rw [cmpPreId_swap]
    cases cmpPreId a b <;> simp [Ordering.swap, cmpPreList_swap as bs]

theorem cmpPreList_eq_iff : ∀ as bs, cmpPreList as bs = .eq ↔ as = bs
  | [], [] => by simp [cmpPreList]
  | [], _ :: _ => by simp [cmpPreList]
  | _ :: _, [] => by simp [cmpPreList]
  | a :: as, b :: bs => by
    simp only [cmpPreList]
    cases h : cmpPreId a b
    · simp only [reduceCtorEq, false_iff]
      intro hc
      injection hc with h1 _
      subst h1
      rw [cmpPreId_eq_iff.mpr rfl] at h
      exact absurd h (by simp)
    · have hab : a = b := cmpPreId_eq_iff.mp h
      simp [hab, cmpPreList_eq_iff as bs]
    · simp only [reduceCtorEq, false_iff]
      intro hc
      injection hc with h1 _
      subst h1
      rw [cmpPreId_eq_iff.mpr rfl] at h
      exact absurd h (by simp)

theorem cmpPre_swap (as bs : List PreId) : cmpPre bs as = (cmpPre as bs).swap := by
  cases as <;> cases bs
  · rfl
  · rfl
  · rfl
  · exact cmpPreList_swap _ _

theorem cmpPre_eq_iff {as bs : List PreId} : cmpPre as bs = .eq ↔ as = bs := by
  cases as <;> cases bs <;> simp [cmpPre, cmpPreList_eq_iff]

theorem verCompare_swap (a b : Version) : verCompare b a = (verCompare a b).swap := by
  unfold verCompare
  rw [cmpNat_swap a.major b.major, cmpNat_swap a.minor b.minor, cmpNat_swap a.patch b.patch,
    cmpPre_swap a.pre b.pre]
  cases cmpNat a.major b.major <;> cases cmpNat a.minor b.minor <;>
    cases cmpNat a.patch b.patch <;> cases cmpPre a.pre b.pre <;> rfl

theorem verCompare_refl (a : Version) : verCompare a a = .eq := by
  unfold verCompare
  rw [cmpNat_eq_iff.mpr rfl, cmpNat_eq_iff.mpr rfl, cmpNat_eq_iff.mpr rfl,
    cmpPre_eq_iff.mpr rfl]

theorem verCompare_ne_of_lt {a b : Version} (h : verCompare a b = .lt) : (a == b) = false := by
  rw [beq_eq_false_iff_ne]
  intro hc
  subst hc
  rw [verCompare_refl] at h
  exact absurd h (by simp)

theorem verCompare_eq_iff {a b : Version} : verCompare a b = .eq ↔ a = b := by
  constructor
  · intro h
    unfold verCompare at h
    cases hmaj : cmpNat a.major b.major <;> simp only [hmaj, reduceCtorEq] at h
    cases hmin : cmpNat a.minor b.minor <;> simp only [hmin, reduceCtorEq] at h
    cases hpat : cmpNat a.patch b.patch <;> simp only [hpat, reduceCtorEq] at h
    obtain ⟨maj1, min1, pat1, pre1⟩ := a
    obtain ⟨maj2, min2, pat2, pre2⟩ := b
    simp only at hmaj hmin hpat h
    rw [cmpNat_eq_iff] at hmaj hmin hpat
    rw [cmpPre_eq_iff] at h
    simp [hmaj, hmin, hpat, h]
  · rintro rfl
    exact verCompare_refl a

theorem ordBeq_eq_lt : (Ordering.eq == Ordering.lt) = false := rfl

theorem ordBeq_lt_gt : (Ordering.lt == Ordering.gt) = false := rfl

theorem ordBeq_gt_lt : (Ordering.gt == Ordering.lt) = false := rfl

theorem ordBeq_lt_lt : (Ordering.lt == Ordering.lt) = true := rfl

theorem ordBeq_gt_gt : (Ordering.gt == Ordering.gt) = true := rfl

theorem ordBeq_lt_eq : (Ordering.lt == Ordering.eq) = false := rfl

theorem ordBeq_gt_eq : (Ordering.gt == Ordering.eq) = false := rfl

theorem ordBeq_eq_gt : (Ordering.eq == Ordering.gt) = false := rfl

/-- Comparator.intersects is symmetric except for the pair of the ANY
comparator with an exact prerelease comparator, where the prerelease
exclusion of Range.test fires in one direction only. -/
theorem compIntersects_comm (c1 c2 : Comparator)
    (h1 : ¬(c1 = Comparator.any ∧ isEqPre c2 = true))
    (h2 : ¬(c2 = Comparator.any ∧ isEqPre c1 = true)) :
    compIntersects c1 c2 = compIntersects c2 c1 := by
  cases c1 with
  | any =>
    cases c2 with
    | any => rfl
    | c op v =>
      cases op with
      | eq =>
        have hpre : v.pre.isEmpty = true := by
          by_contra hc
          exact h1 ⟨rfl, by simp [isEqPre, hc]⟩
        simp [compIntersects, rangeTest, testSet, compTest, hasPreMatch, hpre]
      | lt => rfl
      | le => rfl
      | gt => rfl
      | ge => rfl
  | c op1 v1 =>
    cases c2 with
    | any =>
      cases op1 with
      | eq =>
        have hpre : v1.pre.isEmpty = true := by
          by_contra hc
          exact h2 ⟨rfl, by simp [isEqPre, hc]⟩
        simp [compIntersects, rangeTest, testSet, compTest, hasPreMatch, hpre]
      | lt => rfl
      | le => rfl
      | gt => rfl
      | ge => rfl
    | c op2 v2 =>
      cases hcmp : verCompare v1 v2 with
      | eq =>
        obtain rfl : v1 = v2 := verCompare_eq_iff.mp hcmp
        cases op1 <;> cases op2 <;>
          simp [compIntersects, rangeTest, testSet, compTest, hasPreMatch,
            isGtDir, isLtDir, isIncl, isLt0, verCompare_refl, ordBeq_eq_lt, ordBeq_eq_gt,
            Bool.or_comm, Bool.and_comm]
      | lt =>
        have hswap : verCompare v2 v1 = .gt := by
          rw [verCompare_swap, hcmp]
          rfl
        have hne : (v1 == v2) = false := verCompare_ne_of_lt hcmp
        have hne2 : (v2 == v1) = false := by
          rw [beq_eq_false_iff_ne] at hne ⊢
          exact fun hc => hne hc.symm
        cases op1 <;> cases op2 <;>
          simp [compIntersects, rangeTest, testSet, compTest, hasPreMatch,
            isGtDir, isLtDir, isIncl, isLt0, hcmp, hswap, hne, hne2,
            ordBeq_lt_gt, ordBeq_gt_lt, ordBeq_lt_lt, ordBeq_gt_gt, ordBeq_lt_eq,
            ordBeq_gt_eq, Bool.or_comm]
      | gt =>
        have hswap : verCompare v2 v1 = .lt := by
          rw [verCompare_swap, hcmp]
          rfl
        have hne2 : (v2 == v1) = false := verCompare_ne_of_lt hswap
        have hne : (v1 == v2) = false := by
          rw [beq_eq_false_iff_ne] at hne2 ⊢
          exact fun hc => hne2 hc.symm
        cases op1 <;> cases op2 <;>
          simp [compIntersects, rangeTest, testSet, compTest, hasPreMatch,
            isGtDir, isLtDir, isIncl, isLt0, hcmp, hswap, hne, hne2,
            ordBeq_lt_gt, ordBeq_gt_lt, ordBeq_lt_lt, ordBeq_gt_gt, ordBeq_lt_eq,
            ordBeq_gt_eq, Bool.or_comm]

/-- Range.intersects is symmetric whenever no side pairs the ANY
comparator against an exact prerelease comparator of the other
side. -/
theorem rangeIntersects_comm (r1 r2 : SemverRange)
    (h1 : ¬(hasAnyComp r1 = true ∧ hasEqPre r2 = true))
    (h2 : ¬(hasAnyComp r2 = true ∧ hasEqPre r1 = true)) :
    rangeIntersects r1 r2 = rangeIntersects r2 r1 := by
  have hcomm : ∀ s1 ∈ r1, ∀ s2 ∈ r2, ∀ c1 ∈ s1, ∀ c2 ∈ s2,
      compIntersects c1 c2 = compIntersects c2 c1 := by
    intro s1 hs1 s2 hs2 c1 hc1 c2 hc2
    apply compIntersects_comm
    · rintro ⟨rfl, hpre⟩
      refine h1 ⟨?_, ?_⟩
      · simp only [hasAnyComp, List.any_eq_true]
        exact ⟨s1, hs1, Comparator.any, hc1, by simp⟩
      · simp only [hasEqPre, List.any_eq_true]
        exact ⟨s2, hs2, c2, hc2, hpre⟩
    · rintro ⟨rfl, hpre⟩
      refine h2 ⟨?_, ?_⟩
      · simp only [hasAnyComp, List.any_eq_true]
        exact ⟨s2, hs2, Comparator.any, hc2, by simp⟩
      · simp only [hasEqPre, List.any_eq_true]
        exact ⟨s1, hs1, c1, hc1, hpre⟩
  rw [Bool.eq_iff_iff]
  simp only [rangeIntersects, List.any_eq_true, List.all_eq_true, Bool.and_eq_true]
  constructor
  · rintro ⟨s1, hs1, hsat1, s2, hs2, hsat2, hall⟩
    refine ⟨s2, hs2, hsat2, s1, hs1, hsat1, ?_⟩
    intro c2 hc2 c1 hc1
    rw [← hcomm s1 hs1 s2 hs2 c1 hc1 c2 hc2]
    exact hall c1 hc1 c2 hc2
  · rintro ⟨s2, hs2, hsat2, s1, hs1, hsat1, hall⟩
    refine ⟨s1, hs1, hsat1, s2, hs2, hsat2, ?_⟩
    intro c1 hc1 c2 hc2
    rw [hcomm s1 hs1 s2 hs2 c1 hc1 c2 hc2]
    exact hall c2 hc2 c1 hc1

/-!
Invariants of the checkCompatibility loop.
-/

theorem processPeers_spec (installed : List (String × Rng)) (meta : List (String × Option Bool)) :
    ∀ peers cs ps, processPeers installed meta peers = .ok (cs, ps) →
      (∀ c ∈ cs,
        c.fixCommand = if isFailing c.status then some (fixCmd c.name c.required) else none) ∧
      ps = (cs.filter fun c => isFailing c.status).map fun c => fixPart c.name c.required
  | [], cs, ps, h => by
    simp only [processPeers, Except.ok.injEq, Prod.mk.injEq] at h
    obtain ⟨rfl, rfl⟩ := h
    simp
  | (peerName, requiredRange) :: rest, cs, ps, h => by
    simp only [processPeers] at h
    split at h
    · split at h
      · split at h
        · exact absurd h (by simp)
        · rename_i cs' ps' hrec
          simp only [Except.ok.injEq, Prod.mk.injEq] at h
          obtain ⟨rfl, rfl⟩ := h
          obtain ⟨ih1, ih2⟩ := processPeers_spec installed meta rest cs' ps' hrec
          constructor
          · intro c hc
            rcases List.mem_cons.mp hc with rfl | hc'
            · simp [isFailing]
            · exact ih1 c hc'
          · rw [List.filter_cons_of_neg (by simp [isFailing])]
            exact ih2
      · split at h
        · exact absurd h (by simp)
        · rename_i cs' ps' hrec
          simp only [Except.ok.injEq, Prod.mk.injEq] at h
          obtain ⟨rfl, rfl⟩ := h
          obtain ⟨ih1, ih2⟩ := processPeers_spec installed meta rest cs' ps' hrec
          constructor
          · intro c hc
            rcases List.mem_cons.mp hc with rfl | hc'
            · simp [isFailing]
            · exact ih1 c hc'
          · rw [List.filter_cons_of_pos (by simp [isFailing]), List.map_cons, ← ih2]
    · split at h
      · exact absurd h (by simp)
      · split at h
        · split at h
          · exact absurd h (by simp)
          · rename_i cs' ps' hrec
            simp only [Except.ok.injEq, Prod.mk.injEq] at h
            obtain ⟨rfl, rfl⟩ := h
            obtain ⟨ih1, ih2⟩ := processPeers_spec installed meta rest cs' ps' hrec
            constructor
            · intro c hc
              rcases List.mem_cons.mp hc with rfl | hc'
              · simp [isFailing]
              · exact ih1 c hc'
            · rw [List.filter_cons_of_neg (by simp [isFailing])]
              exact ih2
        · split at h
          · exact absurd h (by simp)
          · rename_i cs' ps' hrec
            simp only [Except.ok.injEq, Prod.mk.injEq] at h
            obtain ⟨rfl, rfl⟩ := h
            obtain ⟨ih1, ih2⟩ := processPeers_spec installed meta rest cs' ps' hrec
            constructor
            · intro c hc
              rcases List.mem_cons.mp hc with rfl | hc'
              · simp [isFailing]
              · exact ih1 c hc'
            · rw [List.filter_cons_of_pos (by simp [isFailing]), List.map_cons, ← ih2]

theorem attachCombined_filter : ∀ (cs : List PeerCheck) (s : String) (f : PeerCheck)
      (fs : List PeerCheck),
    cs.filter (fun c => isFailing c.status) = f :: fs →
    (attachCombined cs s).filter (fun c => isFailing c.status) =
      { f with fixCommand := some s } :: fs
  | [], s, f, fs, h => by simp at h
  | c :: cs, s, f, fs, h => by
    cases hf : isFailing c.status
    · rw [List.filter_cons_of_neg (by simp [hf])] at h
      simp only [attachCombined, hf, Bool.false_eq_true, if_false]
      rw [List.filter_cons_of_neg (by simp [hf])]
      exact attachCombined_filter cs s f fs h
    · rw [List.filter_cons_of_pos (by simp [hf])] at h
      injection h with h1 h2
      subst h1
      subst h2
      simp only [attachCombined, hf, if_true]
      rw [List.filter_cons_of_pos (by simp [hf])]

theorem attachCombined_fix : ∀ (cs : List PeerCheck) (s : String),
    (∀ c ∈ cs,
      c.fixCommand = if isFailing c.status then some (fixCmd c.name c.required) else none) →
    ∀ c ∈ attachCombined cs s, c.fixCommand.isSome = isFailing c.status
  | [], _, _, c, hc => absurd hc (by simp [attachCombined])
  | d :: cs, s, hyp, c, hc => by
    cases hf : isFailing d.status
    · simp only [attachCombined, hf, Bool.false_eq_true, if_false] at hc
      rcases List.mem_cons.mp hc with rfl | hc'
      · rw [hyp c (List.mem_cons_self _ _), hf]
        simp
      · exact attachCombined_fix cs s (fun x hx => hyp x (List.mem_cons_of_mem _ hx)) c hc'
    · simp only [attachCombined, hf, if_true] at hc
      rcases List.mem_cons.mp hc with rfl | hc'
      · simp [hf]
      · rw [hyp c (List.mem_cons_of_mem _ hc')]
        cases hfc : isFailing c.status <;> simp [hfc]

/-- Decomposition of a successful checkCompatibility run: either one
of the three early returns fired, or the loop ran and the report was
assembled from its checks and fixParts. -/
theorem checkCompatibility_ok_cases (packageName : String) (manifest : Option UserPackageJson)
    (peerData : Option PeersData) (r : CompatibilityReport)
    (h : checkCompatibility packageName manifest peerData = .ok r) :
    (r.checks = [] ∧ r.compatible = true) ∨
    (∃ pkg pd cs ps, manifest = some pkg ∧ peerData = some pd ∧
      processPeers (getInstalledPackages pkg) pd.meta pd.peers = .ok (cs, ps) ∧
      r = assembleReport packageName cs ps) := by
  unfold checkCompatibility at h
  split at h
  · left
    obtain rfl := (Except.ok.injEq _ _).mp h
    exact ⟨rfl, rfl⟩
  · rename_i pkg
    split at h
    · left
      obtain rfl := (Except.ok.injEq _ _).mp h
      exact ⟨rfl, rfl⟩
    · rename_i pd
      split at h
      · left
        obtain rfl := (Except.ok.injEq _ _).mp h
        exact ⟨rfl, rfl⟩
      · split at h
        · exact absurd h (by simp)
        · rename_i cs ps hrec
          right
          obtain rfl := (Except.ok.injEq _ _).mp h
          exact ⟨pkg, pd, cs, ps, rfl, rfl, hrec, rfl⟩

theorem isFailing_iff {st : PeerStatus} :
    isFailing st = true ↔ st = .MISSING ∨ st = .INCOMPATIBLE := by
  cases st <;> simp [isFailing]

/-!
Lemmas about the JS object embedding used by getInstalledPackages.
-/

theorem lookupFirst_setKey_self : ∀ (t : List (String × α)) (k : String) (v : α),
    lookupFirst (setKey t k v) k = some v
  | [], k, v => by simp [setKey, lookupFirst]
  | (k', v') :: t, k, v => by
    by_cases h : k' = k
    · simp [setKey, lookupFirst, h]
    · have hne : (k' == k) = false := beq_eq_false_iff_ne.mpr h
      simp only [setKey, hne, Bool.false_eq_true, if_false]
      simp only [lookupFirst, List.find?, hne]
      exact lookupFirst_setKey_self t k v

theorem lookupFirst_setKey_other : ∀ (t : List (String × α)) (k : String) (v : α) (k2 : String),
    k2 ≠ k → lookupFirst (setKey t k v) k2 = lookupFirst t k2
  | [], k, v, k2, h => by
    have hne : (k == k2) = false := beq_eq_false_iff_ne.mpr fun hc => h hc.symm
    simp [setKey, lookupFirst, hne]
  | (k', v') :: t, k, v, k2, h => by
    by_cases hk : k' = k
    · subst hk
      have hne : (k' == k2) = false := beq_eq_false_iff_ne.mpr fun hc => h hc.symm
      simp [setKey, lookupFirst, List.find?, hne]
    · have hne : (k' == k) = false := beq_eq_false_iff_ne.mpr hk
      simp only [setKey, hne, Bool.false_eq_true, if_false]
      by_cases h2 : k' = k2
      · simp [lookupFirst, List.find?, h2]
      · have hne2 : (k' == k2) = false := beq_eq_false_iff_ne.mpr h2
        simp only [lookupFirst, List.find?, hne2]
        exact lookupFirst_setKey_other t k v k2 h

theorem objAssign_lookup_of_not_mem : ∀ (src t : List (String × α)) (k : String),
    (∀ p ∈ src, p.1 ≠ k) → lookupFirst (objAssign t src) k = lookupFirst t k
  | [], t, k, _ => rfl
  | (k', v') :: src, t, k, h => by
    show lookupFirst (objAssign (setKey t k' v') src) k = _
    rw [objAssign_lookup_of_not_mem src (setKey t k' v') k
      (fun p hp => h p (List.mem_cons_of_mem _ hp))]
    exact lookupFirst_setKey_other t k' v' k
      (fun hc => h (k', v') (List.mem_cons_self _ _) hc.symm)

theorem objAssign_lookup : ∀ (src t : List (String × α)) (k : String) (v : α),
    (src.map Prod.fst).Nodup → lookupFirst src k = some v →
    lookupFirst (objAssign t src) k = some v
  | [], t, k, v, _, hlook => by simp [lookupFirst] at hlook
  | (k', v') :: src, t, k, v, hnodup, hlook => by
    simp only [List.map_cons, List.nodup_cons] at hnodup
    by_cases hk : k' = k
    · subst hk
      have hv : v' = v := by
        simpa [lookupFirst, List.find?] using hlook
      subst hv
      have hnotmem : ∀ p ∈ src, p.1 ≠ k' := by
        intro p hp hc
        have hmem : p.1 ∈ src.map Prod.fst := List.mem_map_of_mem Prod.fst hp
        rw [hc] at hmem
        exact hnodup.1 hmem
      show lookupFirst (objAssign (setKey t k' v') src) k' = some v'
      rw [objAssign_lookup_of_not_mem src (setKey t k' v') k' hnotmem]
      exact lookupFirst_setKey_self t k' v'
    · have hne : (k' == k) = false := beq_eq_false_iff_ne.mpr hk
      simp only [lookupFirst, List.find?, hne] at hlook
      show lookupFirst (objAssign (setKey t k' v') src) k = some v
      exact objAssign_lookup src (setKey t k' v') k v hnodup.2 hlook

/-!
Bounds of the scoring factors.
-/

theorem jsRound_nonneg {q : Rat} (h : 0 ≤ q) : 0 ≤ jsRound q := by
  unfold jsRound
  exact Int.le_floor.mpr (by push_cast; linarith)

theorem jsRound_le {q : Rat} {w : Int} (h : q ≤ (w : Rat)) : jsRound q ≤ w := by
  unfold jsRound
  have h1 : ⌊q + 1 / 2⌋ ≤ ⌊(w : Rat) + 1 / 2⌋ := Int.floor_le_floor (by linarith)
  have h2 : ⌊(w : Rat) + 1 / 2⌋ = w := by
    rw [add_comm, Int.floor_add_int]
    norm_num
  omega

theorem weight_scaled_bounds (w : Int) (hw : 0 ≤ w) (p : Rat) (hp0 : 0 ≤ p) (hp1 : p ≤ 1) :
    0 ≤ jsRound ((w : Rat) * (1 - p)) ∧ jsRound ((w : Rat) * (1 - p)) ≤ w := by
  have hw0 : (0 : Rat) ≤ (w : Rat) := by exact_mod_cast hw
  constructor
  · apply jsRound_nonneg
    nlinarith
  · apply jsRound_le
    nlinarith

theorem scoreCompatibility_bounds (r : CompatibilityReport) :
    0 ≤ (scoreCompatibility r).score ∧ (scoreCompatibility r).score ≤ 40 := by
  unfold scoreCompatibility WEIGHT_COMPATIBILITY
  dsimp only
  split
  · norm_num
  · exact weight_scaled_bounds 40 (by norm_num) _
      (le_min (by positivity) (by norm_num)) (min_le_right _ _)

theorem scoreSecurity_bounds (r : SecurityReport) :
    0 ≤ (scoreSecurity r).score ∧ (scoreSecurity r).score ≤ 30 := by
  unfold scoreSecurity WEIGHT_SECURITY
  dsimp only
  split
  · norm_num
  · exact weight_scaled_bounds 30 (by norm_num) _
      (le_min (by positivity) (by norm_num)) (min_le_right _ _)

theorem scoreDeprecation_bounds (info : Option PackageInfo) :
    0 ≤ (scoreDeprecation info).score ∧ (scoreDeprecation info).score ≤ 15 := by
  cases info with
  | none => simp [scoreDeprecation, WEIGHT_DEPRECATION]
  | some i =>
    cases hd : i.deprecated <;> simp [scoreDeprecation, hd, WEIGHT_DEPRECATION]

theorem scoreDeprecation_deprecated {i : PackageInfo} {msg : String}
    (h : i.deprecated = some msg) : (scoreDeprecation (some i)).score = 0 := by
  simp [scoreDeprecation, h]

theorem scoreMaintenance_bounds (info : Option PackageInfo) (now : Int) :
    0 ≤ (scoreMaintenance info now).score ∧ (scoreMaintenance info now).score ≤ 15 := by
  cases info with
  | none => simp [scoreMaintenance, WEIGHT_MAINTENANCE]
  | some i =>
    unfold scoreMaintenance WEIGHT_MAINTENANCE
    dsimp only
    constructor
    · exact le_max_right _ _
    · apply max_le _ (by norm_num)
      repeat' split
      all_goals norm_num

/-- Normal form of calculateRiskScore: the score is the sum of the
four factor scores and the action is the threshold function of that
sum. -/
theorem calculateRiskScore_eq (c : CompatibilityReport) (s : SecurityReport)
    (info : Option PackageInfo) (now : Int) :
    calculateRiskScore c s info now =
      ⟨(scoreCompatibility c).score + (scoreSecurity s).score +
          (scoreDeprecation info).score + (scoreMaintenance info now).score,
        (if 75 < (scoreCompatibility c).score + (scoreSecurity s).score +
            (scoreDeprecation info).score + (scoreMaintenance info now).score then .ALLOW
          else if 40 < (scoreCompatibility c).score + (scoreSecurity s).score +
            (scoreDeprecation info).score + (scoreMaintenance info now).score then .WARN
          else .BLOCK),
        [scoreCompatibility c, scoreSecurity s, scoreDeprecation info,
          scoreMaintenance info now]⟩ := by
  unfold calculateRiskScore THRESHOLD_ALLOW THRESHOLD_WARN
  simp only [List.foldl, zero_add, gt_iff_lt]

/-!
Theorems for the individual claims.
-/

/-- C1: checkCompatibility calls semver.intersects without a
try/catch, so an unparseable installed range makes the whole check
reject with a TypeError instead of classifying that peer INCOMPATIBLE
and continuing; the remaining peers (vue here) are never examined and
no report is produced. -/
theorem C1_unparseable_range_aborts :
    checkCompatibility "some-lib"
        (some ⟨some [("react", invalidRange)], none⟩)
        (some ⟨[("react", caret18), ("vue", caret3)], [], "1.0.0"⟩) =
      .error "Invalid comparator: not-a-range" := by
  decide

/-- C2 counterexample: with metadata reporting the package deprecated
but all other factors at their maxima (no peer checks, no
vulnerabilities, fresh publish, two maintainers, many downloads) the
total is 40 + 30 + 0 + 15 = 85, which is above the 75 threshold, so
the action is ALLOW and not at most WARN. -/
theorem C2_counterexample :
    deprecatedInfo.deprecated = some "use String.prototype.padStart" ∧
    (scoreDeprecation (some deprecatedInfo)).score = 0 ∧
    (calculateRiskScore ⟨"left-pad", [], true⟩ ⟨"left-pad", [], false⟩
        (some deprecatedInfo) 0).score = 85 ∧
    (calculateRiskScore ⟨"left-pad", [], true⟩ ⟨"left-pad", [], false⟩
        (some deprecatedInfo) 0).action = .ALLOW := by
  decide

/-- C2 amended: when the metadata provider reports the package as
deprecated the deprecation factor score is 0 and the total score is at
most 85; the action is at most WARN whenever the other three factors
leave the total at or below 75, but a total above 75 (possible up to
85) still yields ALLOW. -/
theorem C2_deprecated_amended (c : CompatibilityReport) (s : SecurityReport) (i : PackageInfo)
    (now : Int) (msg : String) (hdep : i.deprecated = some msg) :
    (scoreDeprecation (some i)).score = 0 ∧
    (calculateRiskScore c s (some i) now).score ≤ 85 ∧
    ((calculateRiskScore c s (some i) now).score ≤ 75 →
      (calculateRiskScore c s (some i) now).action = .WARN ∨
        (calculateRiskScore c s (some i) now).action = .BLOCK) := by
  have hdep0 := scoreDeprecation_deprecated hdep
  obtain ⟨hc0, hc1⟩ := scoreCompatibility_bounds c
  obtain ⟨hs0, hs1⟩ := scoreSecurity_bounds s
  obtain ⟨hm0, hm1⟩ := scoreMaintenance_bounds (some i) now
  rw [calculateRiskScore_eq]
  dsimp only
  refine ⟨hdep0, by omega, fun hle => ?_⟩
  split_ifs with h75 h40
  · exact absurd h75 (by omega)
  · exact Or.inl rfl
  · exact Or.inr rfl

/-- C2 witness: the amended theorem applied to the deprecated sample
metadata. -/
theorem C2_amended_witness :
    deprecatedInfo.deprecated = some "use String.prototype.padStart" ∧
    (scoreDeprecation (some deprecatedInfo)).score = 0 :=
  ⟨rfl,
    (C2_deprecated_amended ⟨"left-pad", [], true⟩ ⟨"left-pad", [], false⟩ deprecatedInfo 0
      "use String.prototype.padStart" rfl).1⟩

/-- C3 counterexample: the manifest declares react `^17.0.0` in
dependencies and `^18.0.0` in devDependencies; the merged map binds
react to the devDependencies range (the second Object.assign wins),
not to the dependencies range. -/
theorem C3_counterexample :
    lookupFirst
        (getInstalledPackages ⟨some [("react", caret17)], some [("react", caret18)]⟩)
        "react" = some caret18 ∧
    caret18 ≠ caret17 := by
  decide

/-- C3 amended: when a package name is declared in both objects, the
merged installed map binds it to the devDependencies range
(last-write-wins), because getInstalledPackages assigns dependencies
first and devDependencies second. -/
theorem C3_devDependencies_override (deps devDeps : List (String × Rng)) (name : String)
    (v : Rng) (hnodup : (devDeps.map Prod.fst).Nodup)
    (hlook : lookupFirst devDeps name = some v) :
    lookupFirst (getInstalledPackages ⟨some deps, some devDeps⟩) name = some v := by
  show lookupFirst (objAssign (objAssign [] deps) devDeps) name = some v
  exact objAssign_lookup devDeps (objAssign [] deps) name v hnodup hlook

/-- C3 witness: the amended theorem applied to the colliding react
declaration. -/
theorem C3_witness :
    ((([("react", caret18)] : List (String × Rng)).map Prod.fst).Nodup ∧
      lookupFirst [("react", caret18)] "react" = some caret18) ∧
    lookupFirst
        (getInstalledPackages ⟨some [("react", caret17)], some [("react", caret18)]⟩)
        "react" = some caret18 :=
  ⟨⟨by decide, by decide⟩,
    C3_devDependencies_override [("react", caret17)] [("react", caret18)] "react" caret18
      (by decide) (by decide)⟩

/-- C4: calculateRiskScore returns the sum of the four factor scores,
that sum lies in [0, 100], and the action is ALLOW exactly above 75,
WARN exactly in (40, 75] and BLOCK exactly at or below 40 — so a
total of exactly 75 yields WARN and exactly 40 yields BLOCK. -/
theorem C4_risk_score_thresholds (c : CompatibilityReport) (s : SecurityReport)
    (info : Option PackageInfo) (now : Int) :
    (calculateRiskScore c s info now).score =
      (scoreCompatibility c).score + (scoreSecurity s).score +
        (scoreDeprecation info).score + (scoreMaintenance info now).score ∧
    0 ≤ (calculateRiskScore c s info now).score ∧
    (calculateRiskScore c s info now).score ≤ 100 ∧
    ((calculateRiskScore c s info now).action = .ALLOW ↔
      75 < (calculateRiskScore c s info now).score) ∧
    ((calculateRiskScore c s info now).action = .WARN ↔
      (40 < (calculateRiskScore c s info now).score ∧
        (calculateRiskScore c s info now).score ≤ 75)) ∧
    ((calculateRiskScore c s info now).action = .BLOCK ↔
      (calculateRiskScore c s info now).score ≤ 40) := by
  obtain ⟨hc0, hc1⟩ := scoreCompatibility_bounds c
  obtain ⟨hs0, hs1⟩ := scoreSecurity_bounds s
  obtain ⟨hd0, hd1⟩ := scoreDeprecation_bounds info
  obtain ⟨hm0, hm1⟩ := scoreMaintenance_bounds info now
  rw [calculateRiskScore_eq]
  dsimp only
  refine ⟨rfl, by omega, by omega, ?_, ?_, ?_⟩ <;>
    split_ifs with h75 h40 <;> simp <;> omega

/-- C5: for every report a successful checkCompatibility run
produces, the compatible flag is true exactly when every check is
COMPATIBLE or OPTIONAL_MISSING; a MISSING or INCOMPATIBLE check makes
it false and an absent optional peer (OPTIONAL_MISSING) never
does. -/
theorem C5_compatible_iff (packageName : String) (manifest : Option UserPackageJson)
    (peerData : Option PeersData) (r : CompatibilityReport)
    (h : checkCompatibility packageName manifest peerData = .ok r) :
    r.compatible = true ↔
      ∀ c ∈ r.checks,
        c.status = PeerStatus.COMPATIBLE ∨ c.status = PeerStatus.OPTIONAL_MISSING := by
  rcases checkCompatibility_ok_cases _ _ _ _ h with ⟨hchecks, hcomp⟩ | ⟨pkg, pd, cs, ps, _, _, _, hr⟩
  · rw [hcomp, hchecks]
    simp
  · subst hr
    simp [assembleReport, List.all_eq_true]

/-- C5 witness: the iff evaluated on the sample run with one
INCOMPATIBLE and one MISSING peer. -/
theorem C5_witness :
    checkCompatibility "some-lib" (some sampleManifest) (some samplePeers) = .ok sampleReport ∧
    (sampleReport.compatible = true ↔
      ∀ c ∈ sampleReport.checks,
        c.status = PeerStatus.COMPATIBLE ∨ c.status = PeerStatus.OPTIONAL_MISSING) :=
  ⟨by decide,
    C5_compatible_iff "some-lib" (some sampleManifest) (some samplePeers) sampleReport
      (by decide)⟩

/-- C6: in every report a successful checkCompatibility run produces,
a check carries a fixCommand exactly when its status is MISSING or
INCOMPATIBLE; when some check fails, the first failing check in
iteration order carries the combined command naming every failing
peer with its required range, space-joined after one `npm install `,
and every other failing check keeps its individual command. -/
theorem C6_fix_command_invariant (packageName : String) (manifest : Option UserPackageJson)
    (peerData : Option PeersData) (r : CompatibilityReport)
    (h : checkCompatibility packageName manifest peerData = .ok r) :
    (∀ c ∈ r.checks,
      (c.fixCommand.isSome = true ↔
        (c.status = PeerStatus.MISSING ∨ c.status = PeerStatus.INCOMPATIBLE))) ∧
    (∀ f fs, r.checks.filter (fun c => isFailing c.status) = f :: fs →
      f.fixCommand = some ("npm install " ++ String.intercalate " "
        ((f :: fs).map fun c => fixPart c.name c.required)) ∧
      ∀ c ∈ fs, c.fixCommand = some (fixCmd c.name c.required)) := by
  rcases checkCompatibility_ok_cases _ _ _ _ h with ⟨hchecks, _⟩ | ⟨pkg, pd, cs, ps, _, _, hrec, hr⟩
  · rw [hchecks]
    exact ⟨fun c hc => absurd hc (List.not_mem_nil c), fun f fs hf => by simp at hf⟩
  · obtain ⟨hfix, hps⟩ := processPeers_spec _ _ _ _ _ hrec
    subst hr
    by_cases hempty : ps.isEmpty
    · have hps0 : ps = [] := List.isEmpty_iff.mp hempty
      have hfilter : cs.filter (fun c => isFailing c.status) = [] := by
        rw [hps0] at hps
        exact (List.map_eq_nil_iff.mp hps.symm)
      have hchecks : (assembleReport packageName cs ps).checks = cs := by
        simp [assembleReport, hempty]
      constructor
      · intro c hc
        rw [hchecks] at hc
        rw [hfix c hc]
        cases hfc : isFailing c.status <;> simp [hfc, ← isFailing_iff]
      · intro f fs hf
        rw [hchecks, hfilter] at hf
        exact absurd hf (by simp)
    · have hchecks : (assembleReport packageName cs ps).checks =
          attachCombined cs ("npm install " ++ String.intercalate " " ps) := by
        simp [assembleReport, hempty]
      obtain ⟨f0, fs0, hf0⟩ :
          ∃ f0 fs0, cs.filter (fun c => isFailing c.status) = f0 :: fs0 := by
        rcases hcs : cs.filter (fun c => isFailing c.status) with _ | ⟨f0, fs0⟩
        · rw [hcs] at hps
          simp only [List.map_nil] at hps
          rw [hps] at hempty
          exact absurd rfl hempty
        · exact ⟨f0, fs0, hcs⟩
      have hattach := attachCombined_filter cs ("npm install " ++ String.intercalate " " ps)
        f0 fs0 hf0
      constructor
      · intro c hc
        rw [hchecks] at hc
        have hsome := attachCombined_fix cs _ hfix c hc
        rw [hsome]
        exact isFailing_iff
      · intro f fs hf
        rw [hchecks, hattach] at hf
        injection hf with hf1 hf2
        subst hf1
        subst hf2
        constructor
        · show some _ = some _
          rw [hps, hf0]
          rfl
        · intro c hcfs
          have hmem : c ∈ cs.filter (fun c => isFailing c.status) := by
            rw [hf0]
            exact List.mem_cons_of_mem _ hcfs
          obtain ⟨hcmem, hcfail⟩ := List.mem_filter.mp hmem
          rw [hfix c hcmem, if_pos hcfail]

/-- C6 witness: the fixCommand iff evaluated on the sample run. -/
theorem C6_witness :
    checkCompatibility "some-lib" (some sampleManifest) (some samplePeers) = .ok sampleReport ∧
    (∀ c ∈ sampleReport.checks,
      (c.fixCommand.isSome = true ↔
        (c.status = PeerStatus.MISSING ∨ c.status = PeerStatus.INCOMPATIBLE))) :=
  ⟨by decide,
    (C6_fix_command_invariant "some-lib" (some sampleManifest) (some samplePeers) sampleReport
      (by decide)).1⟩

/-- C7: the security factor is the full weight 30 on an empty
vulnerability list; otherwise it is round(30·(1 − min(1,
(15·critical + 8·high + 3·moderate)/30))); LOW vulnerabilities do not
change the score even though they stay in the report. -/
theorem C7_security_factor (report : SecurityReport) :
    (report.vulnerabilities = [] → (scoreSecurity report).score = 30) ∧
    (report.vulnerabilities ≠ [] →
      (scoreSecurity report).score =
        jsRound ((30 : Rat) *
          (1 - min (((15 * report.vulnerabilities.countP
                (fun v => v.severity == Severity.CRITICAL) +
              8 * report.vulnerabilities.countP (fun v => v.severity == Severity.HIGH) +
              3 * report.vulnerabilities.countP
                (fun v => v.severity == Severity.MODERATE) : Nat) : Rat) / 30) 1))) ∧
    (∀ v : SecurityVulnerability, v.severity = Severity.LOW →
      (scoreSecurity ⟨report.packageName, v :: report.vulnerabilities, report.hasCritical⟩).score =
        (scoreSecurity report).score) := by
  refine ⟨fun h => by simp [scoreSecurity, h, WEIGHT_SECURITY], fun h => ?_, fun v hv => ?_⟩
  · have hlen : report.vulnerabilities.length ≠ 0 := fun hc => h (List.length_eq_zero.mp hc)
    unfold scoreSecurity WEIGHT_SECURITY
    rw [if_neg hlen]
    dsimp only
    rw [List.countP_eq_length_filter, List.countP_eq_length_filter,
      List.countP_eq_length_filter]
    congr 2
    push_cast
    ring_nf
  · by_cases hre : report.vulnerabilities = []
    · have h30 : (scoreSecurity report).score = 30 := by
        simp [scoreSecurity, hre, WEIGHT_SECURITY]
      have hL : (scoreSecurity ⟨report.packageName, [v], report.hasCritical⟩).score = 30 := by
        unfold scoreSecurity WEIGHT_SECURITY
        rw [if_neg (by simp)]
        dsimp only
        rw [List.filter_cons_of_neg (by simp [hv]), List.filter_cons_of_neg (by simp [hv]),
          List.filter_cons_of_neg (by simp [hv])]
        simp only [List.filter_nil, List.length_nil]
        norm_num [jsRound, min_def]
      rw [hre, hL, h30]
    · have hlen1 : (v :: report.vulnerabilities).length ≠ 0 := by simp
      have hlen2 : report.vulnerabilities.length ≠ 0 :=
        fun hc => hre (List.length_eq_zero.mp hc)
      have h1 : (v :: report.vulnerabilities).filter (fun x => x.severity == Severity.CRITICAL) =
          report.vulnerabilities.filter (fun x => x.severity == Severity.CRITICAL) :=
        List.filter_cons_of_neg (by simp [hv])
      have h2 : (v :: report.vulnerabilities).filter (fun x => x.severity == Severity.HIGH) =
          report.vulnerabilities.filter (fun x => x.severity == Severity.HIGH) :=
        List.filter_cons_of_neg (by simp [hv])
      have h3 : (v :: report.vulnerabilities).filter (fun x => x.severity == Severity.MODERATE) =
          report.vulnerabilities.filter (fun x => x.severity == Severity.MODERATE) :=
        List.filter_cons_of_neg (by simp [hv])
      unfold scoreSecurity WEIGHT_SECURITY
      rw [if_neg hlen1, if_neg hlen2]
      dsimp only
      rw [h1, h2, h3]

/-- C7 witness: the nonempty-list formula evaluated on a report with
one CRITICAL vulnerability. -/
theorem C7_witness :
    sampleSecReport.vulnerabilities ≠ [] ∧
    (scoreSecurity sampleSecReport).score =
      jsRound ((30 : Rat) *
        (1 - min (((15 * sampleSecReport.vulnerabilities.countP
              (fun v => v.severity == Severity.CRITICAL) +
            8 * sampleSecReport.vulnerabilities.countP (fun v => v.severity == Severity.HIGH) +
            3 * sampleSecReport.vulnerabilities.countP
              (fun v => v.severity == Severity.MODERATE) : Nat) : Rat) / 30) 1)) :=
  ⟨by decide, (C7_security_factor sampleSecReport).2.1 (by decide)⟩

/-- C8: checkCompatibility returns the empty compatible report when
no manifest was found, when the peer fetch failed, and when the
target declares zero peer requirements — in each case for every
installed map. -/
theorem C8_empty_report_cases (packageName : String) :
    (∀ pd : Option PeersData,
      checkCompatibility packageName none pd = .ok ⟨packageName, [], true⟩) ∧
    (∀ m : UserPackageJson,
      checkCompatibility packageName (some m) none = .ok ⟨packageName, [], true⟩) ∧
    (∀ (m : UserPackageJson) (meta : List (String × Option Bool)) (v : String),
      checkCompatibility packageName (some m) (some ⟨[], meta, v⟩) =
        .ok ⟨packageName, [], true⟩) :=
  ⟨fun _ => rfl, fun _ => rfl, fun _ _ _ => rfl⟩

/-- C9 counterexample: overlap is not symmetric for all pairs — the
wildcard range against the exact prerelease version 1.2.3-beta
overlaps in one argument order and not in the other, because
Comparator.intersects short-circuits when the ANY comparator is the
receiver but applies the prerelease exclusion of Range.test when it is
the argument. -/
theorem C9_counterexample :
    semverIntersects starRange exactBeta = .ok true ∧
    semverIntersects exactBeta starRange = .ok false := by
  decide

/-- C9 amended: the overlap decision is symmetric for every pair of
ranges in which no side pairs the ANY comparator against an exact
prerelease comparator of the other side (in particular for all
prerelease-free or wildcard-free ranges), and it follows
range-intersection semantics rather than containment:
`^17.0.0` against `^18.0.0` does not overlap while
`>=17.0.0 <19.0.0` against `^18.0.0` does, in both orders. -/
theorem C9_overlap_amended :
    (∀ r1 r2 : SemverRange,
      ¬(hasAnyComp r1 = true ∧ hasEqPre r2 = true) →
      ¬(hasAnyComp r2 = true ∧ hasEqPre r1 = true) →
      rangeIntersects r1 r2 = rangeIntersects r2 r1) ∧
    semverIntersects caret17 caret18 = .ok false ∧
    semverIntersects caret18 caret17 = .ok false ∧
    semverIntersects range1719 caret18 = .ok true ∧
    semverIntersects caret18 range1719 = .ok true :=
  ⟨rangeIntersects_comm, by decide, by decide, by decide, by decide⟩

/-- C9 witness: the symmetry part applied to the desugared ranges of
`^17.0.0` and `^18.0.0`. -/
theorem C9_witness :
    (¬(hasAnyComp [[Comparator.c .ge ⟨17, 0, 0, []⟩, Comparator.c .lt ⟨18, 0, 0, [.num 0]⟩]] = true ∧
        hasEqPre [[Comparator.c .ge ⟨18, 0, 0, []⟩, Comparator.c .lt ⟨19, 0, 0, [.num 0]⟩]] = true)) ∧
    rangeIntersects [[Comparator.c .ge ⟨17, 0, 0, []⟩, Comparator.c .lt ⟨18, 0, 0, [.num 0]⟩]]
        [[Comparator.c .ge ⟨18, 0, 0, []⟩, Comparator.c .lt ⟨19, 0, 0, [.num 0]⟩]] =
      rangeIntersects [[Comparator.c .ge ⟨18, 0, 0, []⟩, Comparator.c .lt ⟨19, 0, 0, [.num 0]⟩]]
        [[Comparator.c .ge ⟨17, 0, 0, []⟩, Comparator.c .lt ⟨18, 0, 0, [.num 0]⟩]] :=
  ⟨by decide,
    C9_overlap_amended.1
      [[Comparator.c .ge ⟨17, 0, 0, []⟩, Comparator.c .lt ⟨18, 0, 0, [.num 0]⟩]]
      [[Comparator.c .ge ⟨18, 0, 0, []⟩, Comparator.c .lt ⟨19, 0, 0, [.num 0]⟩]]
      (by decide) (by decide)⟩

/-- C10: in every report checkSecurity returns, hasCritical is true
exactly when some vulnerability in the list has severity CRITICAL,
and both error paths (thrown fetch and non-ok response) return the
empty list with hasCritical false. -/
theorem C10_hasCritical_iff (packageName version : String) (outcome : OsvOutcome) :
    ((checkSecurity packageName version outcome).hasCritical = true ↔
      ∃ v ∈ (checkSecurity packageName version outcome).vulnerabilities,
        v.severity = Severity.CRITICAL) ∧
    ((outcome = .fetchError ∨ outcome = .notOk) →
      (checkSecurity packageName version outcome).vulnerabilities = [] ∧
      (checkSecurity packageName version outcome).hasCritical = false) := by
  cases outcome with
  | fetchError => exact ⟨by simp [checkSecurity], fun _ => ⟨rfl, rfl⟩⟩
  | notOk => exact ⟨by simp [checkSecurity], fun _ => ⟨rfl, rfl⟩⟩
  | ok data =>
    refine ⟨?_, by rintro (h | h) <;> exact absurd h (by simp)⟩
    rcases hv : data.vulns with _ | (_ | ⟨v0, rest⟩)
    · simp [checkSecurity, hv]
    · simp [checkSecurity, hv]
    · simp [checkSecurity, hv, List.any_eq_true]

/-- C10 witness: the error-path conclusion evaluated on a non-ok
response. -/
theorem C10_witness :
    (OsvOutcome.notOk = OsvOutcome.fetchError ∨ OsvOutcome.notOk = OsvOutcome.notOk) ∧
    (checkSecurity "left-pad" "1.3.0" .notOk).vulnerabilities = [] ∧
    (checkSecurity "left-pad" "1.3.0" .notOk).hasCritical = false :=
  ⟨Or.inr rfl, (C10_hasCritical_iff "left-pad" "1.3.0" .notOk).2 (Or.inr rfl)⟩

end DG
